import Mathlib

/-!
Shallow embedding of the `my-web-proxy` server (src/server.js and the two
related server variants in src/unnamed/part_000) for checking the
natural-language specification.

The repository code is JavaScript.  Pure helpers (`resolveUrl`,
`isBlockedUrl`, the cheerio attribute-rewrite passes, header filtering)
are translated to Lean functions.  `nativeFetch` performs network I/O;
it is embedded as a pure function parameterized by a network oracle
`net : Request → Response` and additionally returns the list of requests
it issued, so that "no request is sent to X" is expressible.

URL parsing in the source is Node's WHATWG `new URL(input, base)`.
That library collaborator is modelled here for the subset of inputs the
program handles: absolute http(s)/ws(s)/ftp/file URLs with optional
userinfo, IPv6 bracket literals, ports, paths with dot-segment removal,
query and fragment; opaque-path URLs for every other scheme; and
relative resolution (empty, fragment-only, query-only, path-absolute,
protocol-relative and path-relative references).  Two WHATWG behaviours
that the verdicts below rely on are modelled faithfully:
  * the `hostname` of an IPv6 literal keeps its square brackets
    (WHATWG host serializer: "[" ++ ipv6 ++ "]", as in Node), and
  * scheme and hostname are lower-cased, default ports are dropped.
Not modelled (documented simplifications, no claim depends on them):
punycode/IDNA hosts, the same-scheme special relative quirk
("http:foo" against an http base), percent-2e dot segments, and the
serialization of empty-but-present query/fragment markers.
-/

set_option maxRecDepth 4000

/-- ASCII numeric helpers: the parser works on `Char.toNat` codes so that
no special characters need to appear as literals. -/
def isDigitCode (n : Nat) : Bool := 48 ≤ n && n ≤ 57

def isAlphaCode (n : Nat) : Bool := (65 ≤ n && n ≤ 90) || (97 ≤ n && n ≤ 122)

def isAlphaNumCode (n : Nat) : Bool := isDigitCode n || isAlphaCode n

def toLowerStr (s : String) : String := String.mk (s.data.map Char.toLower)

def toUpperStr (s : String) : String := String.mk (s.data.map Char.toUpper)

/-- JS `haystack.includes(needle)` on strings. -/
def strContainsList : List Char → List Char → Bool
  | [], n => n.isEmpty
  | c :: t, n => List.isPrefixOf n (c :: t) || strContainsList t n

def strContains (s sub : String) : Bool := strContainsList s.data sub.data

/-- JS `s.startsWith(p)` (list-based so that proofs can evaluate it). -/
def strStartsWith (s p : String) : Bool := List.isPrefixOf p.data s.data

/-- Association-list update, replacing the first binding of the key
(models JS object property assignment / Express `res.set`). -/
def assocSet : List (String × String) → String → String → List (String × String)
  | [], k, v => [(k, v)]
  | (k', v') :: t, k, v => if k' = k then (k, v) :: t else (k', v') :: assocSet t k v

def lookupH : List (String × String) → String → Option String
  | [], _ => none
  | (k', v) :: t, k => if k' = k then some v else lookupH t k

/-- Uppercase hex digit of a value below 16. -/
def hexDigit (n : Nat) : Char := if n < 10 then Char.ofNat (48 + n) else Char.ofNat (55 + n)

/-- UTF-8 bytes of a unicode code point. -/
def utf8Bytes (n : Nat) : List Nat :=
  if n < 0x80 then [n]
  else if n < 0x800 then [0xC0 + n / 64, 0x80 + n % 64]
  else if n < 0x10000 then [0xE0 + n / 4096, 0x80 + (n / 64) % 64, 0x80 + n % 64]
  else [0xF0 + n / 262144, 0x80 + (n / 4096) % 64, 0x80 + (n / 64) % 64, 0x80 + n % 64]

def pctByte (b : Nat) : String := String.mk [Char.ofNat 0x25, hexDigit (b / 16), hexDigit (b % 16)]

def pctChar (c : Char) : String := String.join ((utf8Bytes c.toNat).map pctByte)

/-- Percent-encode every character whose code fails `keep`. -/
def encodeWith (keep : Nat → Bool) (s : String) : String :=
  String.join (s.data.map fun c => if keep c.toNat then String.singleton c else pctChar c)

/-- WHATWG path percent-encode set (C0, space, quote, angle brackets,
backquote, curly brackets, DEL and non-ASCII are escaped). -/
def pathKeepCode (n : Nat) : Bool :=
  0x21 ≤ n && n ≤ 0x7e &&
    !(n = 0x22 || n = 0x3c || n = 0x3e || n = 0x60 || n = 0x7b || n = 0x7d)

/-- WHATWG query percent-encode set for special schemes. -/
def queryKeepCode (n : Nat) : Bool :=
  0x21 ≤ n && n ≤ 0x7e && !(n = 0x22 || n = 0x3c || n = 0x3e || n = 0x27)

/-- WHATWG fragment percent-encode set. -/
def fragKeepCode (n : Nat) : Bool :=
  0x21 ≤ n && n ≤ 0x7e && !(n = 0x22 || n = 0x3c || n = 0x3e || n = 0x60)

/-- JS `encodeURIComponent`: keeps alphanumerics and `-_.!~*'()`. -/
def encodeURIComponent (s : String) : String :=
  encodeWith
    (fun n => isAlphaNumCode n ||
      n = 0x2d || n = 0x5f || n = 0x2e || n = 0x21 || n = 0x7e ||
      n = 0x2a || n = 0x27 || n = 0x28 || n = 0x29)
    s

/-- A parsed URL record mirroring the fields of Node's `URL` object that
the program reads: `protocol` (with trailing colon, lower case),
`hostname` (lower case, IPv6 keeps its brackets), `port` (empty when the
scheme default), `pathname`, `search` (with leading `?` or empty) and
`hash` (with leading number sign or empty).  Non-special schemes store
their opaque path in `pathname` with empty hostname. -/
structure URLRec where
  protocol : String
  hostname : String
  port : String
  pathname : String
  search : String
  hash : String
deriving DecidableEq, Repr

def specialSchemes : List String := ["http", "https", "ws", "wss", "ftp", "file"]

def isSpecialProto (p : String) : Bool :=
  p = "http:" || p = "https:" || p = "ws:" || p = "wss:" || p = "ftp:" || p = "file:"

def defaultPortOf (protocol : String) : Option Nat :=
  if protocol = "http:" || protocol = "ws:" then some 80
  else if protocol = "https:" || protocol = "wss:" then some 443
  else if protocol = "ftp:" then some 21
  else none

/-- WHATWG input preprocessing: strip leading/trailing C0-or-space and
remove internal tab/newline characters. -/
def stripInput (s : String) : List Char :=
  (((s.data.dropWhile (fun c => c.toNat ≤ 0x20)).reverse.dropWhile
      (fun c => c.toNat ≤ 0x20)).reverse).filter
    (fun c => c.toNat ≠ 9 && c.toNat ≠ 10 && c.toNat ≠ 13)

def schemeCode (n : Nat) : Bool := isAlphaNumCode n || n = 0x2b || n = 0x2d || n = 0x2e

def parseSchemeAux : List Char → List Char → Option (String × List Char)
  | _, [] => none
  | acc, c :: r =>
    if c.toNat = 0x3a then some (String.mk acc.reverse, r)
    else if schemeCode c.toNat then parseSchemeAux (c.toLower :: acc) r
    else none

/-- Parse a leading URL scheme (letter, then letters/digits/`+-.`, then a
colon); returns the lower-cased scheme and the rest. -/
def parseScheme : List Char → Option (String × List Char)
  | [] => none
  | c :: r => if isAlphaCode c.toNat then parseSchemeAux [c.toLower] r else none

def isSlashCode (n : Nat) : Bool := n = 0x2f || n = 0x5c

/-- Characters that end the authority section: `/ \ ? #`. -/
def notAuthorityEnd (c : Char) : Bool := !(isSlashCode c.toNat || c.toNat = 0x3f || c.toNat = 0x23)

/-- Split remaining input into raw path, query and fragment parts. -/
def splitPQF (l : List Char) : List Char × List Char × List Char :=
  let p := l.takeWhile fun c => c.toNat ≠ 0x3f && c.toNat ≠ 0x23
  let rest := l.drop p.length
  match rest with
  | [] => (p, [], [])
  | c :: r =>
    if c.toNat = 0x3f then
      let q := r.takeWhile fun c => c.toNat ≠ 0x23
      let r2 := r.drop q.length
      (p, q, match r2 with | [] => [] | _ :: f => f)
    else (p, [], r)

def splitSlash : List Char → List (List Char) → List Char → List (List Char)
  | [], acc, cur => (cur.reverse :: acc).reverse
  | c :: t, acc, cur =>
    if c.toNat = 0x2f then splitSlash t (cur.reverse :: acc) []
    else splitSlash t acc (c :: cur)

/-- Dot-segment removal (WHATWG path state / RFC 3986 §5.2.4): `.` is
dropped, `..` pops, and a final `.`/`..` leaves a trailing slash. -/
def remDots : List String → List String → List String
  | out, [] => out.reverse
  | out, s :: rest =>
    let isLast := rest.isEmpty
    if s = "." then remDots (if isLast then "" :: out else out) rest
    else if s = ".." then
      let out' := match out with | [] => [] | _ :: t => t
      remDots (if isLast then "" :: out' else out') rest
    else remDots (s :: out) rest

/-- Normalize a special-scheme path: backslashes become slashes, dot
segments are removed, each segment is percent-encoded, and the result
starts with a slash (empty input serializes as "/"). -/
def normalizePath (l : List Char) : String :=
  match l.map (fun c => if c.toNat = 0x5c then Char.ofNat 0x2f else c) with
  | [] => "/"
  | c :: t =>
    let body := if c.toNat = 0x2f then t else c :: t
    let segs := splitSlash body [] []
    let segs' := remDots [] (segs.map String.mk)
    "/" ++ String.intercalate "/" (segs'.map (encodeWith pathKeepCode))

def mkSearch (q : List Char) : String :=
  if q.isEmpty then "" else "?" ++ encodeWith queryKeepCode (String.mk q)

def mkHash (f : List Char) : String :=
  if f.isEmpty then "" else "#" ++ encodeWith fragKeepCode (String.mk f)

def natOfDigits : List Char → Nat → Nat
  | [], acc => acc
  | c :: t, acc => natOfDigits t (acc * 10 + (c.toNat - 48))

def parsePort (protocol : String) (ds : List Char) : Option String :=
  if ds.all (fun c => isDigitCode c.toNat) then
    if ds.isEmpty then some ""
    else
      let v := natOfDigits ds 0
      if v > 65535 then none
      else if defaultPortOf protocol = some v then some ""
      else some (toString v)
  else none

def forbiddenHostCode (n : Nat) : Bool :=
  n ≤ 0x20 || n = 0x23 || n = 0x25 || n = 0x2f || n = 0x3f || n = 0x40 ||
  n = 0x5b || n = 0x5c || n = 0x5d || n = 0x5e || n = 0x7c

def ipv6Code (n : Nat) : Bool :=
  isDigitCode n || (97 ≤ n && n ≤ 102) || (65 ≤ n && n ≤ 70) || n = 0x3a || n = 0x2e

/-- Parse host (optionally a bracketed IPv6 literal) and port out of an
authority chunk.  The serialized hostname of an IPv6 literal keeps its
brackets, matching the WHATWG host serializer used by Node. -/
def parseHostPort (protocol : String) (hp : List Char) : Option (String × String) :=
  match hp with
  | c :: t =>
    if c.toNat = 0x5b then
      let mid := t.takeWhile fun d => d.toNat ≠ 0x5d
      match t.drop mid.length with
      | d :: rest =>
        if d.toNat = 0x5d && !mid.isEmpty && mid.all (fun e => ipv6Code e.toNat) then
          let host := "[" ++ toLowerStr (String.mk mid) ++ "]"
          match rest with
          | [] => some (host, "")
          | e :: ds =>
            if e.toNat = 0x3a then (parsePort protocol ds).map (fun p => (host, p))
            else none
        else none
      | [] => none
    else
      let hostChars := hp.takeWhile fun d => d.toNat ≠ 0x3a
      if hostChars.isEmpty || hostChars.any (fun d => forbiddenHostCode d.toNat) then none
      else
        let host := toLowerStr (String.mk hostChars)
        match hp.drop hostChars.length with
        | [] => some (host, "")
        | _ :: ds => (parsePort protocol ds).map (fun p => (host, p))
  | [] => none

/-- Drop a userinfo section: everything up to the last commercial-at of
the authority chunk is discarded. -/
def stripUserinfo (auth : List Char) : List Char :=
  if auth.any (fun c => c.toNat = 0x40) then
    (auth.reverse.takeWhile fun c => c.toNat ≠ 0x40).reverse
  else auth

def buildSpecial (protocol host port : String) (after : List Char) : Option URLRec :=
  let (p, q, f) := splitPQF after
  some ⟨protocol, host, port, normalizePath p, mkSearch q, mkHash f⟩

/-- Model of `new URL(input)` (no base) for the subset described in the
file header. -/
def parseURL (input : String) : Option URLRec :=
  let l := stripInput input
  match parseScheme l with
  | none => none
  | some (scheme, rest) =>
    let protocol := scheme ++ ":"
    if scheme = "file" then
      if List.isPrefixOf [Char.ofNat 0x2f, Char.ofNat 0x2f] rest then
        let rest2 := rest.drop 2
        let auth := rest2.takeWhile notAuthorityEnd
        let after := rest2.drop auth.length
        if auth.isEmpty then buildSpecial protocol "" "" after
        else
          match parseHostPort protocol (stripUserinfo auth) with
          | none => none
          | some (h, p) => buildSpecial protocol h p after
      else
        let rest2 := if List.isPrefixOf [Char.ofNat 0x2f] rest then rest else Char.ofNat 0x2f :: rest
        buildSpecial protocol "" "" rest2
    else if specialSchemes.contains scheme then
      let rest2 := rest.dropWhile fun c => isSlashCode c.toNat
      let auth := rest2.takeWhile notAuthorityEnd
      let after := rest2.drop auth.length
      let auth2 := stripUserinfo auth
      if auth2.isEmpty then none
      else
        match parseHostPort protocol auth2 with
        | none => none
        | some (h, p) => buildSpecial protocol h p after
    else
      let (p, q, f) := splitPQF rest
      some ⟨protocol, "", "", String.mk p,
        (if q.isEmpty then "" else "?" ++ String.mk q),
        (if f.isEmpty then "" else "#" ++ String.mk f)⟩

/-- Serializer matching `URL.prototype.toString` on the modelled subset. -/
def urlSerialize (u : URLRec) : String :=
  if isSpecialProto u.protocol then
    u.protocol ++ "//" ++ u.hostname ++ (if u.port = "" then "" else ":" ++ u.port) ++
      u.pathname ++ u.search ++ u.hash
  else u.protocol ++ u.pathname ++ u.search ++ u.hash

/-- Directory part of a path: everything up to and including the last
slash (used for relative-reference merging). -/
def dirOf (p : String) : String :=
  let l := p.data
  let afterLen := (l.reverse.takeWhile fun c => c.toNat ≠ 0x2f).length
  String.mk (l.take (l.length - afterLen))

/-- Model of `new URL(href, base)`: absolute references are parsed
directly; otherwise the reference is resolved against the parsed base
(empty, fragment-only, query-only, protocol-relative, path-absolute or
path-relative). -/
def parseResolved (base href : String) : Option URLRec :=
  let hl := stripInput href
  match parseScheme hl with
  | some _ => parseURL href
  | none =>
    match parseURL base with
    | none => none
    | some b =>
      if !isSpecialProto b.protocol then none
      else
        match hl with
        | [] => some ⟨b.protocol, b.hostname, b.port, b.pathname, b.search, ""⟩
        | c :: t =>
          if c.toNat = 0x23 then
            some ⟨b.protocol, b.hostname, b.port, b.pathname, b.search, mkHash t⟩
          else if c.toNat = 0x3f then
            let q := t.takeWhile fun d => d.toNat ≠ 0x23
            let r2 := t.drop q.length
            let f := match r2 with | [] => [] | _ :: f => f
            some ⟨b.protocol, b.hostname, b.port, b.pathname, mkSearch q, mkHash f⟩
          else if isSlashCode c.toNat then
            match t with
            | d :: t2 =>
              if isSlashCode d.toNat then
                let auth := t2.takeWhile notAuthorityEnd
                let after := t2.drop auth.length
                let auth2 := stripUserinfo auth
                if auth2.isEmpty then none
                else
                  match parseHostPort b.protocol auth2 with
                  | none => none
                  | some (h, p) => buildSpecial b.protocol h p after
              else
                let (p, q, f) := splitPQF hl
                some ⟨b.protocol, b.hostname, b.port, normalizePath p, mkSearch q, mkHash f⟩
            | [] => some ⟨b.protocol, b.hostname, b.port, "/", "", ""⟩
          else
            let (p, q, f) := splitPQF hl
            let merged := (dirOf b.pathname).data ++ p
            some ⟨b.protocol, b.hostname, b.port, normalizePath merged, mkSearch q, mkHash f⟩

/-- src/server.js `resolveUrl`: `new URL(href, base).toString()`, or null
(here `none`) when the constructor throws. -/
def resolveUrl (base href : String) : Option String :=
  (parseResolved base href).map urlSerialize

namespace Server

/-- src/server.js lines 25-39 `isBlockedUrl`: case-insensitive string
prefix/substring checks on the raw URL text (a falsy argument, here the
empty string, is blocked). -/
def isBlockedUrl (url : String) : Bool :=
  if url = "" then true
  else
    let lower := toLowerStr url
    strStartsWith lower "http://127." ||
    strStartsWith lower "http://localhost" ||
    strStartsWith lower "http://0.0.0.0" ||
    strContains lower "169.254.169.254" ||
    strStartsWith lower "http://169.254." ||
    strStartsWith lower "http://[::1]"

end Server

namespace Fixed

def blockedHosts : List String :=
  ["localhost", "0.0.0.0", "metadata.google.internal", "169.254.169.254"]

/-- The regex `^172\.(1[6-9]|2[0-9]|3[0-1])\.` unrolled over its sixteen
matching second octets. -/
def is172Private (hostname : String) : Bool :=
  ["172.16.", "172.17.", "172.18.", "172.19.", "172.20.", "172.21.",
   "172.22.", "172.23.", "172.24.", "172.25.", "172.26.", "172.27.",
   "172.28.", "172.29.", "172.30.", "172.31."].any (strStartsWith hostname)

/-- The `privatePatterns` regex list of src/unnamed/part_000 lines
292-301, each anchored test translated to the matching string check. -/
def privatePatternHit (hostname : String) : Bool :=
  strStartsWith hostname "127." ||
  strStartsWith hostname "10." ||
  is172Private hostname ||
  strStartsWith hostname "192.168." ||
  strStartsWith hostname "169.254." ||
  hostname = "::1" ||
  strStartsWith hostname "fc00:" ||
  strStartsWith hostname "fe80:"

/-- src/unnamed/part_000 lines 274-322 `isBlockedUrl`: parse the URL
(failure blocks), block non-http(s) protocols, then check the
lower-cased hostname against the exact deny set and the patterns. -/
def isBlockedUrl (url : String) : Bool :=
  if url = "" then true
  else
    match parseURL url with
    | none => true
    | some urlObj =>
      if !(urlObj.protocol = "http:" || urlObj.protocol = "https:") then true
      else
        let hostname := toLowerStr urlObj.hostname
        if blockedHosts.contains hostname then true
        else if privatePatternHit hostname then true
        else false

end Fixed

/-- The request actually issued by one `nativeFetch` hop: the
`reqOptions` handed to `http.request`/`https.request` plus the body
bytes written, so the network oracle and the trace see exactly what
leaves the process. -/
structure Request where
  protocol : String
  hostname : String
  port : String
  path : String
  method : String
  headers : List (String × String)
  bodySent : Option String
deriving DecidableEq, Repr

/-- An upstream response as Node delivers it: status code, (lower-cased)
headers and the fully buffered body. -/
structure Response where
  statusCode : Nat
  headers : List (String × String)
  body : String
deriving DecidableEq, Repr

inductive FetchErr where
  | tooManyRedirects
  | invalidUrl
deriving DecidableEq, Repr

/-- Options record of `nativeFetch` (`method`, `headers`, `body`,
`timeoutMs`); absent fields are `none`. -/
structure FetchOptions where
  method : Option String
  headers : List (String × String)
  body : Option String
  timeoutMs : Option Nat
deriving DecidableEq, Repr

/-- JS `options.method || 'GET'` (absent or empty method falls back). -/
def jsMethod (m : Option String) : String :=
  match m with
  | none => "GET"
  | some s => if s = "" then "GET" else s

/-- Build the `reqOptions` record of src/server.js lines 58-67 and the
body written by lines 97-104. -/
def mkRequest (u : URLRec) (opts : FetchOptions) : Request :=
  let method := jsMethod opts.method
  { protocol := u.protocol
    hostname := u.hostname
    port := if u.port = "" then (if u.protocol = "https:" then "443" else "80") else u.port
    path := u.pathname ++ u.search
    method := method
    headers := assocSet opts.headers "connection" "close"
    bodySent :=
      match opts.body with
      | some b => if b ≠ "" && method ≠ "GET" && method ≠ "HEAD" then some b else none
      | none => none }

/-- JS truthiness of `headers.location` (missing or empty is falsy). -/
def jsLocation (headers : List (String × String)) : Option String :=
  match lookupH headers "location" with
  | some l => if l = "" then none else some l
  | none => none

/-- The redirect test of src/server.js line 74:
`statusCode >= 300 && statusCode < 400 && headers.location`. -/
def redirectTarget (r : Response) : Option String :=
  if 300 ≤ r.statusCode ∧ r.statusCode < 400 then jsLocation r.headers else none

def nextHopOptions (opts : FetchOptions) (statusCode : Nat) : FetchOptions :=
  ⟨some (if statusCode = 303 then "GET" else jsMethod opts.method), opts.headers, none, none⟩

/-- Fuel-indexed body of `nativeFetch`: `nativeFetchGo net k` is the run
whose remaining redirect budget is the integer `k`; a redirect found at
fuel 0 corresponds to the recursive JS call entered with budget -1,
which rejects before parsing or requesting anything.  Alongside the
result it returns the list of requests issued, in order. -/
def nativeFetchGo (net : Request → Response) :
    Nat → String → FetchOptions → Except FetchErr Response × List Request
  | fuel, urlString, opts =>
    match parseURL urlString with
    | none => (.error .invalidUrl, [])
    | some urlObj =>
      let reqOpts := mkRequest urlObj opts
      let res := net reqOpts
      match redirectTarget res with
      | some loc =>
        let nextUrl := (resolveUrl urlString loc).getD "null"
        match fuel with
        | 0 => (.error .tooManyRedirects, [reqOpts])
        | fuel' + 1 =>
          let r := nativeFetchGo net fuel' nextUrl (nextHopOptions opts res.statusCode)
          (r.1, reqOpts :: r.2)
      | none => (.ok res, [reqOpts])

/-- src/server.js lines 45-108 `nativeFetch(urlString, options,
maxRedirects)`: reject when the budget is negative, otherwise run with
the budget as fuel.  A JS `resolveUrl` result of null is passed on as
the string "null" (which fails to parse), exactly as `new URL(null)`
stringifies its argument. -/
def nativeFetch (net : Request → Response) (urlString : String) (opts : FetchOptions)
    (maxRedirects : Int) : Except FetchErr Response × List Request :=
  if maxRedirects < 0 then (.error .tooManyRedirects, [])
  else nativeFetchGo net maxRedirects.toNat urlString opts

/-- What the Express layer sends back to the client: status, headers set
via `res.set` (lower-cased keys) and body text. -/
structure ClientResponse where
  status : Nat
  headers : List (String × String)
  body : String
deriving DecidableEq, Repr

def forwardAllowed : List String :=
  ["cache-control", "content-length", "content-type", "last-modified", "etag"]

/-- Header forwarding of `proxyFetch` (src/server.js lines 128-133):
set Content-Type when present, then copy every upstream header whose
key is in the allow list. -/
def buildProxyHeaders (up : List (String × String)) : List (String × String) :=
  let h0 :=
    match lookupH up "content-type" with
    | some ct => if ct = "" then [] else assocSet [] "content-type" ct
    | none => []
  up.foldl (fun acc kv => if forwardAllowed.contains kv.1 then assocSet acc kv.1 kv.2 else acc) h0

/-- Header forwarding of the `/fetch` POST branch (src/server.js lines
246-247): only Content-Type is copied. -/
def postForwardHeaders (up : List (String × String)) : List (String × String) :=
  match lookupH up "content-type" with
  | some ct => if ct = "" then [] else assocSet [] "content-type" ct
  | none => []

/-- JS `if (req.headers[k]) headers[k] = req.headers[k]`. -/
def fwdClientHeader (acc reqHeaders : List (String × String)) (k : String) :
    List (String × String) :=
  match lookupH reqHeaders k with
  | some v => if v = "" then acc else assocSet acc k v
  | none => none.getD acc

/-- src/server.js lines 111-139 `proxyFetch(rawUrl, req, res)`: reject a
missing or blocked URL with 400 before any fetch, otherwise GET the
resource with budget 5 and relay status, allow-listed headers and body
(fetch errors map to 500). -/
def proxyFetch (net : Request → Response) (rawUrl : Option String)
    (reqHeaders : List (String × String)) : ClientResponse × List Request :=
  match rawUrl with
  | none => (⟨400, [], "Missing url"⟩, [])
  | some raw =>
    if raw = "" then (⟨400, [], "Missing url"⟩, [])
    else if Server.isBlockedUrl raw then (⟨400, [], "Blocked URL"⟩, [])
    else
      let headers := fwdClientHeader (fwdClientHeader [] reqHeaders "user-agent") reqHeaders "accept"
      let out := nativeFetch net raw ⟨some "GET", headers, none, some 20000⟩ 5
      match out.1 with
      | .error _ => (⟨500, [], "Error fetching remote resource"⟩, out.2)
      | .ok resp =>
        (⟨if resp.statusCode = 0 then 200 else resp.statusCode,
          buildProxyHeaders resp.headers, resp.body⟩, out.2)

def jsonEscChar (c : Char) : String :=
  if c.toNat = 0x22 then "\\\""
  else if c.toNat = 0x5c then "\\\\"
  else if c.toNat < 0x20 then
    "\\u00" ++ String.mk [hexDigit (c.toNat / 16), hexDigit (c.toNat % 16)]
  else String.singleton c

def jsonString (s : String) : String :=
  "\"" ++ String.join (s.data.map jsonEscChar) ++ "\""

/-- `JSON.stringify` of a flat string-valued object. -/
def jsonStringify (kvs : List (String × String)) : String :=
  String.singleton (Char.ofNat 0x7b) ++
    String.intercalate "," (kvs.map fun kv => jsonString kv.1 ++ ":" ++ jsonString kv.2) ++
    String.singleton (Char.ofNat 0x7d)

/-- `URLSearchParams.toString` character handling: alphanumerics and
`*-._` kept, space becomes a plus, the rest percent-encoded. -/
def formEncodeStr (s : String) : String :=
  String.join (s.data.map fun c =>
    if isAlphaNumCode c.toNat || c.toNat = 0x2a || c.toNat = 0x2d ||
        c.toNat = 0x2e || c.toNat = 0x5f then String.singleton c
    else if c.toNat = 0x20 then "+"
    else pctChar c)

def formEncode (kvs : List (String × String)) : String :=
  String.intercalate "&" (kvs.map fun kv => formEncodeStr kv.1 ++ "=" ++ formEncodeStr kv.2)

/-- src/server.js lines 218-256, the `/fetch` route: reject missing or
blocked `url` query values with 400 before any dispatch; GET (and the
non-POST fallback) run `proxyFetch`; POST forwards a JSON or
form-encoded body with budget 5 and relays only Content-Type. -/
def fetchRoute (net : Request → Response) (method : String) (queryUrl : Option String)
    (reqHeaders : List (String × String)) (isJson : Bool)
    (reqBody : List (String × String)) : ClientResponse × List Request :=
  match queryUrl with
  | none => (⟨400, [], "Missing url"⟩, [])
  | some raw =>
    if raw = "" then (⟨400, [], "Missing url"⟩, [])
    else if Server.isBlockedUrl raw then (⟨400, [], "Blocked URL"⟩, [])
    else if method = "GET" then proxyFetch net (some raw) reqHeaders
    else if method = "POST" then
      let hb : List (String × String) × String :=
        if isJson then ([("content-type", "application/json")], jsonStringify reqBody)
        else ([("content-type", "application/x-www-form-urlencoded")], formEncode reqBody)
      let out := nativeFetch net raw ⟨some "POST", hb.1, some hb.2, some 20000⟩ 5
      match out.1 with
      | .error _ => (⟨500, [], "Error proxying POST"⟩, out.2)
      | .ok rr =>
        (⟨if rr.statusCode = 0 then 200 else rr.statusCode,
          postForwardHeaders rr.headers, rr.body⟩, out.2)
    else proxyFetch net (some raw) reqHeaders

/-- Anchor pass of the `/search` handler (src/server.js lines 160-168),
acting on one anchor's `href`/`target` attributes: a falsy or
unresolvable href is left untouched, resolved `javascript:`/`mailto:`
URLs are left untouched, anything else becomes a proxy reference with
`target` forced to `_self`. -/
def rewriteAnchor (baseUrl : String) (href target : Option String) :
    Option String × Option String :=
  match href with
  | none => (href, target)
  | some h =>
    if h = "" then (href, target)
    else
      match resolveUrl baseUrl h with
      | none => (href, target)
      | some resolved =>
        if strStartsWith resolved "javascript:" || strStartsWith resolved "mailto:" then
          (href, target)
        else (some ("/fetch?url=" ++ encodeURIComponent resolved), some "_self")

namespace Server

/-- Form pass of src/server.js lines 198-205: resolve `action` (empty
action defaults to the base URL), and rewrite every resolvable form to
the `/fetch` entry point keeping its upper-cased method. -/
def rewriteForm (baseUrl : String) (action method : Option String) :
    Option String × Option String :=
  let actionS := (action.getD "")
  let methodS := toUpperStr (jsMethod method)
  let resolved := if actionS = "" then some baseUrl else resolveUrl baseUrl actionS
  match resolved with
  | none => (action, method)
  | some r =>
    if r = "" then (action, method)
    else (some ("/fetch?url=" ++ encodeURIComponent r), some methodS)

end Server

namespace Fixed

/-- Form pass of src/unnamed/part_000 lines 515-529: a raw action
containing "duckduckgo.com" or "/lite/" is sent to the proxy's own
`/search` with method GET; a nonempty other action is resolved and sent
to `/fetch` with its upper-cased method; an empty action (and an
unresolvable one) leaves the form untouched. -/
def rewriteForm (baseUrl : String) (action method : Option String) :
    Option String × Option String :=
  let actionS := (action.getD "")
  let methodS := toUpperStr (jsMethod method)
  if strContains actionS "duckduckgo.com" || strContains actionS "/lite/" then
    (some "/search", some "GET")
  else if actionS ≠ "" then
    match resolveUrl baseUrl actionS with
    | none => (action, method)
    | some r => (some ("/fetch?url=" ++ encodeURIComponent r), some methodS)
  else (action, method)

end Fixed

/-! Concrete networks and inputs used by witnesses and counterexamples. -/

/-- The search base URL used for concrete rewrite checks. -/
def ddgBase : String := "https://lite.duckduckgo.com/lite/?q=cats"

/-- A network whose public host redirects to the loopback address. -/
def netToLoopback : Request → Response := fun r =>
  if r.hostname = "example.com" then
    ⟨302, [("location", "http://127.0.0.1/secret")], ""⟩
  else ⟨200, [("content-type", "text/plain")], "internal"⟩

/-- A network with a one-hop redirect chain ending at path `/b`. -/
def netChain : Request → Response := fun r =>
  if r.path = "/b" then ⟨200, [("content-type", "text/html")], "done"⟩
  else ⟨301, [("location", "/b")], ""⟩

/-- A network that always answers 303 See Other. -/
def net303 : Request → Response := fun _ => ⟨303, [("location", "/confirm")], ""⟩

/-- A network answering 200 with several allow-listed response headers. -/
def netHeaders : Request → Response := fun _ =>
  ⟨200, [("content-type", "text/html"), ("etag", "abc123"), ("cache-control", "max-age=60")], "ok"⟩

/-- The run of `nativeFetch` on `net` that starts at `u` with options
`opts`, follows exactly `k` redirect hops (each hop parses, gets a
redirecting response, and continues at the resolved Location with the
options the code builds for the next hop) and then receives the
non-redirect response `r`. -/
inductive Reaches (net : Request → Response) : String → FetchOptions → Nat → Response → Prop where
  | final {u : String} {opts : FetchOptions} {v : URLRec} {r : Response} :
      parseURL u = some v → net (mkRequest v opts) = r → redirectTarget r = none →
      Reaches net u opts 0 r
  | step {u : String} {opts : FetchOptions} {v : URLRec} {r : Response} {loc : String}
      {k : Nat} {r' : Response} :
      parseURL u = some v → net (mkRequest v opts) = r → redirectTarget r = some loc →
      Reaches net ((resolveUrl u loc).getD "null") (nextHopOptions opts r.statusCode) k r' →
      Reaches net u opts (k + 1) r'

/-- The first `k` responses of the run starting at `u` are all
redirects (a redirect chain needing at least `k` hops). -/
inductive AllRedirect (net : Request → Response) : String → FetchOptions → Nat → Prop where
  | zero {u : String} {opts : FetchOptions} : AllRedirect net u opts 0
  | step {u : String} {opts : FetchOptions} {v : URLRec} {r : Response} {loc : String} {k : Nat} :
      parseURL u = some v → net (mkRequest v opts) = r → redirectTarget r = some loc →
      AllRedirect net ((resolveUrl u loc).getD "null") (nextHopOptions opts r.statusCode) k →
      AllRedirect net u opts (k + 1)

/-- One step of the `proxyFetch` header-copy loop (the fold body of
`buildProxyHeaders`, named so it can be reasoned about). -/
def copyStep (acc : List (String × String)) (kv : String × String) : List (String × String) :=
  if forwardAllowed.contains kv.1 then assocSet acc kv.1 kv.2 else acc

/-! Unfolding lemmas for one hop of the fetch loop, and the induction
lemmas behind the redirect-budget claims. -/

theorem nativeFetchGo_final (net : Request → Response) (fuel : Nat) (u : String)
    (opts : FetchOptions) (v : URLRec) (res : Response)
    (hp : parseURL u = some v) (hn : net (mkRequest v opts) = res)
    (hrt : redirectTarget res = none) :
    nativeFetchGo net fuel u opts = (.ok res, [mkRequest v opts]) := by
  unfold nativeFetchGo
  rw [hp]
  simp only [hn, hrt]

theorem nativeFetchGo_redirect_zero (net : Request → Response) (u : String)
    (opts : FetchOptions) (v : URLRec) (res : Response) (loc : String)
    (hp : parseURL u = some v) (hn : net (mkRequest v opts) = res)
    (hrt : redirectTarget res = some loc) :
    nativeFetchGo net 0 u opts = (.error .tooManyRedirects, [mkRequest v opts]) := by
  unfold nativeFetchGo
  rw [hp]
  simp only [hn, hrt]

theorem nativeFetchGo_redirect_succ (net : Request → Response) (f : Nat) (u : String)
    (opts : FetchOptions) (v : URLRec) (res : Response) (loc : String)
    (hp : parseURL u = some v) (hn : net (mkRequest v opts) = res)
    (hrt : redirectTarget res = some loc) :
    nativeFetchGo net (f + 1) u opts =
      ((nativeFetchGo net f ((resolveUrl u loc).getD "null")
          (nextHopOptions opts res.statusCode)).1,
        mkRequest v opts ::
          (nativeFetchGo net f ((resolveUrl u loc).getD "null")
            (nextHopOptions opts res.statusCode)).2) := by
  conv_lhs => unfold nativeFetchGo
  rw [hp]
  simp only [hn, hrt]

theorem go_of_reaches {net : Request → Response} {u : String} {opts : FetchOptions}
    {k : Nat} {r : Response} (h : Reaches net u opts k r) :
    ∀ fuel, k ≤ fuel →
      (nativeFetchGo net fuel u opts).1 = .ok r ∧
      (nativeFetchGo net fuel u opts).2.length = k + 1 := by
  induction h with
  | final hp hn hrt =>
    intro fuel _
    rw [nativeFetchGo_final _ _ _ _ _ _ hp hn hrt]
    exact ⟨rfl, rfl⟩
  | step hp hn hrt _ ih =>
    intro fuel hk
    match fuel with
    | f + 1 =>
      have hih := ih f (by omega)
      rw [nativeFetchGo_redirect_succ _ _ _ _ _ _ _ hp hn hrt]
      refine ⟨hih.1, ?_⟩
      simp [hih.2]

theorem go_of_allRedirect {net : Request → Response} :
    ∀ (fuel : Nat) (u : String) (opts : FetchOptions),
      AllRedirect net u opts (fuel + 1) →
      (nativeFetchGo net fuel u opts).1 = .error .tooManyRedirects ∧
      (nativeFetchGo net fuel u opts).2.length = fuel + 1 := by
  intro fuel
  induction fuel with
  | zero =>
    intro u opts h
    cases h with
    | step hp hn hrt _ =>
      rw [nativeFetchGo_redirect_zero _ _ _ _ _ _ hp hn hrt]
      exact ⟨rfl, rfl⟩
  | succ f ih =>
    intro u opts h
    cases h with
    | step hp hn hrt htail =>
      have hih := ih _ _ htail
      rw [nativeFetchGo_redirect_succ _ _ _ _ _ _ _ hp hn hrt]
      refine ⟨hih.1, ?_⟩
      simp [hih.2]

theorem go_trace_le {net : Request → Response} :
    ∀ (fuel : Nat) (u : String) (opts : FetchOptions),
      (nativeFetchGo net fuel u opts).2.length ≤ fuel + 1 := by
  intro fuel
  induction fuel with
  | zero =>
    intro u opts
    unfold nativeFetchGo
    match hp : parseURL u with
    | none => simp
    | some v =>
      simp only []
      match hrt : redirectTarget (net (mkRequest v opts)) with
      | none => simp [hrt]
      | some loc => simp [hrt]
  | succ f ih =>
    intro u opts
    unfold nativeFetchGo
    match hp : parseURL u with
    | none => simp
    | some v =>
      simp only []
      match hrt : redirectTarget (net (mkRequest v opts)) with
      | none => simp [hrt]
      | some loc =>
        simp only [hrt]
        have := ih ((resolveUrl u loc).getD "null")
          (nextHopOptions opts (net (mkRequest v opts)).statusCode)
        simp
        omega

/-! The claim theorems. -/

/-- C1: the claim states that every redirect-target URL is validated by
the Destination Guard before a request is issued, so that a chain
`allowed → blocked` fails with BlockedDestination and no request reaches
the blocked hop.  The code has no such check: `nativeFetch` consults
`isBlockedUrl` nowhere.  On a network where the allowed host
`example.com` answers 302 with Location `http://127.0.0.1/secret`, the
fetch issues a second request to hostname `127.0.0.1` and returns its
response successfully, although both Destination Guard versions classify
that hop as blocked. -/
theorem claim1_redirect_guard_bypass :
    ((nativeFetch netToLoopback "http://example.com/" ⟨some "GET", [], none, none⟩ 5).2.map
        (fun r => r.hostname)) = ["example.com", "127.0.0.1"] ∧
    (nativeFetch netToLoopback "http://example.com/" ⟨some "GET", [], none, none⟩ 5).1 =
      .ok ⟨200, [("content-type", "text/plain")], "internal"⟩ ∧
    Server.isBlockedUrl "http://example.com/" = false ∧
    Server.isBlockedUrl "http://127.0.0.1/secret" = true ∧
    Fixed.isBlockedUrl "http://127.0.0.1/secret" = true :=
  ⟨rfl, rfl, rfl, rfl, rfl⟩

/-- C2: the claim states that every loopback/private/link-local/IPv6
private hostname is blocked.  `http://[fd00::1]/` lies in the claimed
`fc00::/7` unique-local range, yet both guards allow it: the server.js
guard only checks a few literal prefixes, and the part_000 guard tests
its patterns against the bracketed hostname `[fd00::1]` with a pattern
`^fc00:` that covers only half the range.  `http://[::1]/` shows the
bracket problem alone (the `^::1$` pattern can never match), and
`https://127.0.0.1/` shows the server.js guard ignoring non-`http://`
schemes entirely. -/
theorem claim2_private_range_gaps :
    Server.isBlockedUrl "http://[fd00::1]/" = false ∧
    Fixed.isBlockedUrl "http://[fd00::1]/" = false ∧
    Fixed.isBlockedUrl "http://[::1]/" = false ∧
    Server.isBlockedUrl "https://127.0.0.1/" = false ∧
    Fixed.isBlockedUrl "https://127.0.0.1/" = true :=
  ⟨rfl, rfl, rfl, rfl, rfl⟩

/-- C3 counterexample: the claim says the Destination Guard blocks every
non-http(s) scheme, but the `isBlockedUrl` of src/server.js (one of the
two implementations the claim cites) allows `file:`, `ftp:` and
`javascript:` URLs. -/
theorem claim3_counterexample :
    Server.isBlockedUrl "file:///etc/passwd" = false ∧
    Server.isBlockedUrl "ftp://example.com/x" = false ∧
    Server.isBlockedUrl "javascript:alert(1)" = false :=
  ⟨rfl, rfl, rfl⟩

/-- C3 (amended): the enhanced Destination Guard of src/unnamed/part_000
does block every URL that fails to parse and every URL whose parsed
protocol is neither `http:` nor `https:`. -/
theorem claim3_fixed_scheme_guard :
    (∀ url : String, parseURL url = none → Fixed.isBlockedUrl url = true) ∧
    (∀ (url : String) (u : URLRec), parseURL url = some u →
      u.protocol ≠ "http:" → u.protocol ≠ "https:" → Fixed.isBlockedUrl url = true) := by
  constructor
  · intro url h
    unfold Fixed.isBlockedUrl
    by_cases hurl : url = ""
    · simp [hurl]
    · simp [hurl, h]
  · intro url u h hp1 hp2
    unfold Fixed.isBlockedUrl
    by_cases hurl : url = ""
    · simp [hurl]
    · simp [hurl, h, hp1, hp2]

/-- C3 witness: the amended guarantee evaluated on an unparsable URL, a
`file:` URL and a `javascript:` URL. -/
theorem claim3_witness :
    Fixed.isBlockedUrl "not a url" = true ∧
    Fixed.isBlockedUrl "file:///etc/passwd" = true ∧
    Fixed.isBlockedUrl "javascript:alert(1)" = true :=
  ⟨claim3_fixed_scheme_guard.1 "not a url" (by decide),
   claim3_fixed_scheme_guard.2 "file:///etc/passwd" ⟨"file:", "", "", "/etc/passwd", "", ""⟩
     (by decide) (by decide) (by decide),
   claim3_fixed_scheme_guard.2 "javascript:alert(1)" ⟨"javascript:", "", "", "alert(1)", "", ""⟩
     (by decide) (by decide) (by decide)⟩

/-- C5: a redirect chain of exactly `n` hops succeeds with budget `n`
and issues `n + 1` requests, while a chain still redirecting after
`n + 1` responses fails with TooManyRedirects having issued exactly
`n + 1` requests, so the hop past the budget is never requested. -/
theorem claim5_redirect_budget (net : Request → Response) (u : String)
    (opts : FetchOptions) (n : Nat) :
    (∀ r, Reaches net u opts n r →
      (nativeFetch net u opts n).1 = .ok r ∧
      (nativeFetch net u opts n).2.length = n + 1) ∧
    (AllRedirect net u opts (n + 1) →
      (nativeFetch net u opts n).1 = .error .tooManyRedirects ∧
      (nativeFetch net u opts n).2.length = n + 1) := by
  have hnot : ¬ ((n : Int) < 0) := by omega
  have htn : ((n : Int)).toNat = n := by omega
  constructor
  · intro r hr
    have h := go_of_reaches hr n (le_refl n)
    simpa [nativeFetch, hnot, htn] using h
  · intro h
    have h' := go_of_allRedirect n u opts h
    simpa [nativeFetch, hnot, htn] using h'

/-- C5 witness: on `netChain` the one-hop chain succeeds with budget 1
(two requests) and fails with TooManyRedirects with budget 0 (one
request). -/
theorem claim5_witness :
    ((nativeFetch netChain "http://a.example/" ⟨some "GET", [], none, none⟩ 1).1 =
        .ok ⟨200, [("content-type", "text/html")], "done"⟩ ∧
      (nativeFetch netChain "http://a.example/" ⟨some "GET", [], none, none⟩ 1).2.length = 2) ∧
    ((nativeFetch netChain "http://a.example/" ⟨some "GET", [], none, none⟩ 0).1 =
        .error .tooManyRedirects ∧
      (nativeFetch netChain "http://a.example/" ⟨some "GET", [], none, none⟩ 0).2.length = 1) := by
  constructor
  · exact (claim5_redirect_budget netChain "http://a.example/" ⟨some "GET", [], none, none⟩ 1).1
      ⟨200, [("content-type", "text/html")], "done"⟩
      (Reaches.step rfl rfl rfl (Reaches.final rfl rfl rfl))
  · exact (claim5_redirect_budget netChain "http://a.example/" ⟨some "GET", [], none, none⟩ 0).2
      (AllRedirect.step rfl rfl rfl AllRedirect.zero)

/-- C6: on a 300-399 response carrying a Location header, the fetch
continues at the Location resolved against the current hop's URL, with
the budget decremented by one, and with method GET exactly when the
status is 303 and the current method otherwise (`nextHopOptions`). -/
theorem claim6_redirect_step (net : Request → Response) (urlString : String)
    (opts : FetchOptions) (n : Int) (v : URLRec) (res : Response) (loc : String)
    (h0 : 0 ≤ n) (hp : parseURL urlString = some v) (hn : net (mkRequest v opts) = res)
    (h3 : 300 ≤ res.statusCode) (h4 : res.statusCode < 400)
    (hl : jsLocation res.headers = some loc) :
    nativeFetch net urlString opts n =
      ((nativeFetch net ((resolveUrl urlString loc).getD "null")
          (nextHopOptions opts res.statusCode) (n - 1)).1,
        mkRequest v opts ::
          (nativeFetch net ((resolveUrl urlString loc).getD "null")
            (nextHopOptions opts res.statusCode) (n - 1)).2) := by
  have hrt : redirectTarget res = some loc := by
    unfold redirectTarget
    rw [if_pos ⟨h3, h4⟩]
    exact hl
  have hn0 : ¬ n < 0 := by omega
  unfold nativeFetch
  rw [if_neg hn0]
  cases hnt : n.toNat with
  | zero =>
    have hneg : n - 1 < 0 := by omega
    rw [if_pos hneg]
    rw [nativeFetchGo_redirect_zero _ _ _ _ _ _ hp hn hrt]
  | succ f =>
    have hpos : ¬ (n - 1 < 0) := by omega
    rw [if_neg hpos]
    have hf : (n - 1).toNat = f := by omega
    rw [hf]
    exact nativeFetchGo_redirect_succ _ _ _ _ _ _ _ hp hn hrt

/-- C6 witness: a POST request answered with 303 `Location: /confirm`
continues at `http://h.example/confirm` with method GET, body and
timeout dropped, headers kept, and budget 4. -/
theorem claim6_witness :
    nativeFetch net303 "http://h.example/start"
        ⟨some "POST", [("user-agent", "ua")], some "x=1", none⟩ 5 =
      ((nativeFetch net303 "http://h.example/confirm"
          ⟨some "GET", [("user-agent", "ua")], none, none⟩ 4).1,
        mkRequest ⟨"http:", "h.example", "", "/start", "", ""⟩
            ⟨some "POST", [("user-agent", "ua")], some "x=1", none⟩ ::
          (nativeFetch net303 "http://h.example/confirm"
            ⟨some "GET", [("user-agent", "ua")], none, none⟩ 4).2) :=
  claim6_redirect_step net303 "http://h.example/start"
    ⟨some "POST", [("user-agent", "ua")], some "x=1", none⟩ 5
    ⟨"http:", "h.example", "", "/start", "", ""⟩
    ⟨303, [("location", "/confirm")], ""⟩ "/confirm"
    (by decide) rfl rfl (by decide) (by decide) rfl

/-- C10: `nativeFetch` issues at most `n + 1` requests for budget `n`,
and a call entered with a negative budget rejects with TooManyRedirects
without issuing any request. -/
theorem claim10_bounded_hops (net : Request → Response) (u : String)
    (opts : FetchOptions) (n : Int) :
    (nativeFetch net u opts n).2.length ≤ (n + 1).toNat ∧
    (n < 0 → nativeFetch net u opts n = (.error .tooManyRedirects, [])) := by
  constructor
  · by_cases h : n < 0
    · simp [nativeFetch, h]
    · have hle := @go_trace_le net n.toNat u opts
      have heq : n.toNat + 1 = (n + 1).toNat := by omega
      simp only [nativeFetch, if_neg h]
      omega
  · intro h
    simp [nativeFetch, h]

/-- C10 witness: a call with budget -3 rejects immediately with an empty
request trace. -/
theorem claim10_witness :
    nativeFetch netChain "http://a.example/" ⟨some "GET", [], none, none⟩ (-3) =
      (.error .tooManyRedirects, []) :=
  (claim10_bounded_hops netChain "http://a.example/" ⟨some "GET", [], none, none⟩ (-3)).2
    (by decide)

/-- C4 counterexample: a form with an empty `action` attribute inside a
document whose base is the upstream search URL.  The claim requires the
empty action to default to the base URL and (since that base targets the
search endpoint) to be rewritten to the proxy search entry point with
method GET; the part_000 form pass instead leaves the form untouched
(and a generic `/fetch` rewrite does not happen either). -/
theorem claim4_counterexample :
    Fixed.rewriteForm ddgBase (some "") (some "post") = (some "", some "post") ∧
    ((some "", some "post") : Option String × Option String) ≠ (some "/search", some "GET") ∧
    ((some "", some "post") : Option String × Option String) ≠
      (some ("/fetch?url=" ++ encodeURIComponent ddgBase), some "POST") := by
  refine ⟨rfl, by decide, by decide⟩

/-- C4 (amended): in the part_000 rewriter a form whose raw action text
contains "duckduckgo.com" or "/lite/" goes to `/search` with method GET;
a nonempty other action is resolved and goes to `/fetch` with the
upper-cased original method; an empty or unresolvable action leaves the
form untouched.  The src/server.js rewriter has no search special-case:
it sends every form (empty action defaulting to the base URL) to
`/fetch`, preserving the upper-cased method. -/
theorem claim4_forms_characterization (base : String) (action method : Option String)
    (a r : String) :
    ((strContains (action.getD "") "duckduckgo.com" = true ∨
        strContains (action.getD "") "/lite/" = true) →
      Fixed.rewriteForm base action method = (some "/search", some "GET")) ∧
    (action = some a → a ≠ "" → strContains a "duckduckgo.com" = false →
      strContains a "/lite/" = false → resolveUrl base a = some r →
      Fixed.rewriteForm base action method =
        (some ("/fetch?url=" ++ encodeURIComponent r), some (toUpperStr (jsMethod method)))) ∧
    (action = some a → a ≠ "" → strContains a "duckduckgo.com" = false →
      strContains a "/lite/" = false → resolveUrl base a = none →
      Fixed.rewriteForm base action method = (action, method)) ∧
    ((action = none ∨ action = some "") →
      Fixed.rewriteForm base action method = (action, method)) ∧
    (base ≠ "" → (action = none ∨ action = some "") →
      Server.rewriteForm base action method =
        (some ("/fetch?url=" ++ encodeURIComponent base), some (toUpperStr (jsMethod method)))) ∧
    (action = some a → a ≠ "" → resolveUrl base a = some r → r ≠ "" →
      Server.rewriteForm base action method =
        (some ("/fetch?url=" ++ encodeURIComponent r), some (toUpperStr (jsMethod method)))) := by
  refine ⟨?_, ?_, ?_, ?_, ?_, ?_⟩
  · intro h
    unfold Fixed.rewriteForm
    rcases h with h | h
    · simp [h]
    · simp [h]
  · intro ha hne h1 h2 hr
    subst ha
    unfold Fixed.rewriteForm
    simp [h1, h2, hne, hr]
  · intro ha hne h1 h2 hr
    subst ha
    unfold Fixed.rewriteForm
    simp [h1, h2, hne, hr]
  · intro h
    unfold Fixed.rewriteForm
    rcases h with h | h <;> subst h <;> simp <;> exact ⟨by decide, by decide⟩
  · intro hb h
    unfold Server.rewriteForm
    rcases h with h | h <;> subst h <;> simp [hb]
  · intro ha hne hr hrne
    subst ha
    unfold Server.rewriteForm
    simp [hne, hr, hrne]

/-- C4 witness: the characterization evaluated at a search-endpoint
action, a generic action, a missing action (part_000 version), and the
src/server.js behaviour for a missing and a search-endpoint action. -/
theorem claim4_witness :
    Fixed.rewriteForm ddgBase (some "/lite/") (some "post") = (some "/search", some "GET") ∧
    Fixed.rewriteForm ddgBase (some "/other") (some "post") =
      (some ("/fetch?url=" ++ encodeURIComponent "https://lite.duckduckgo.com/other"),
        some "POST") ∧
    Fixed.rewriteForm ddgBase none none = (none, none) ∧
    Server.rewriteForm ddgBase none none =
      (some ("/fetch?url=" ++ encodeURIComponent ddgBase), some "GET") ∧
    Server.rewriteForm ddgBase (some "/lite/") (some "post") =
      (some ("/fetch?url=" ++ encodeURIComponent "https://lite.duckduckgo.com/lite/"),
        some "POST") := by
  refine ⟨?_, ?_, ?_, ?_, ?_⟩
  · exact (claim4_forms_characterization ddgBase (some "/lite/") (some "post") "" "").1
      (Or.inr (by decide))
  · exact (claim4_forms_characterization ddgBase (some "/other") (some "post") "/other"
      "https://lite.duckduckgo.com/other").2.1 rfl (by decide) (by decide) (by decide) (by decide)
  · exact (claim4_forms_characterization ddgBase none none "" "").2.2.2.1 (Or.inl rfl)
  · exact (claim4_forms_characterization ddgBase none none "" "").2.2.2.2.1 (by decide) (Or.inl rfl)
  · exact (claim4_forms_characterization ddgBase (some "/lite/") (some "post") "/lite/"
      "https://lite.duckduckgo.com/lite/").2.2.2.2.2 rfl (by decide) (by decide) (by decide)

/-- C7: a missing (absent or empty) `url` query value or one the
Destination Guard blocks makes both the `/fetch` route and `proxyFetch`
answer 400 with the message naming the reason ("Missing url" or
"Blocked URL"), and the request trace stays empty: no network call is
made. -/
theorem claim7_reject_no_network (net : Request → Response) (method : String)
    (queryUrl : Option String) (reqHeaders : List (String × String)) (isJson : Bool)
    (reqBody : List (String × String)) (raw : String) :
    ((queryUrl = none ∨ queryUrl = some "") →
      fetchRoute net method queryUrl reqHeaders isJson reqBody = (⟨400, [], "Missing url"⟩, []) ∧
      proxyFetch net queryUrl reqHeaders = (⟨400, [], "Missing url"⟩, [])) ∧
    (queryUrl = some raw → raw ≠ "" → Server.isBlockedUrl raw = true →
      fetchRoute net method queryUrl reqHeaders isJson reqBody = (⟨400, [], "Blocked URL"⟩, []) ∧
      proxyFetch net queryUrl reqHeaders = (⟨400, [], "Blocked URL"⟩, [])) := by
  constructor
  · intro h
    rcases h with h | h <;> subst h <;> exact ⟨rfl, rfl⟩
  · intro hq hne hb
    subst hq
    constructor
    · simp [fetchRoute, hne, hb]
    · simp [proxyFetch, hne, hb]

/-- C7 witness: a missing url and the blocked `http://localhost/admin`,
each rejected with 400 and an empty request trace. -/
theorem claim7_witness :
    (fetchRoute netChain "GET" none [] false [] = (⟨400, [], "Missing url"⟩, []) ∧
      proxyFetch netChain none [] = (⟨400, [], "Missing url"⟩, [])) ∧
    (fetchRoute netChain "POST" (some "http://localhost/admin") [] false [] =
        (⟨400, [], "Blocked URL"⟩, []) ∧
      proxyFetch netChain (some "http://localhost/admin") [] = (⟨400, [], "Blocked URL"⟩, [])) :=
  ⟨(claim7_reject_no_network netChain "GET" none [] false [] "x").1 (Or.inl rfl),
   (claim7_reject_no_network netChain "POST" (some "http://localhost/admin") [] false []
      "http://localhost/admin").2 rfl (by decide) (by decide)⟩

/-- C8: the anchor pass leaves an absent (or empty, which the code
treats as absent) or unresolvable href untouched, leaves anchors whose
resolved URL starts with `javascript:` or `mailto:` byte-for-byte
unchanged, and rewrites every other anchor to
`/fetch?url=<percent-encoded resolved URL>` with `target` forced to
`_self`. -/
theorem claim8_anchor_rewrite (base : String) (href target : Option String) (h r : String) :
    ((href = none ∨ href = some "") → rewriteAnchor base href target = (href, target)) ∧
    (href = some h → resolveUrl base h = none → rewriteAnchor base href target = (href, target)) ∧
    (href = some h → resolveUrl base h = some r →
      (strStartsWith r "javascript:" = true ∨ strStartsWith r "mailto:" = true) →
      rewriteAnchor base href target = (href, target)) ∧
    (href = some h → h ≠ "" → resolveUrl base h = some r →
      strStartsWith r "javascript:" = false → strStartsWith r "mailto:" = false →
      rewriteAnchor base href target =
        (some ("/fetch?url=" ++ encodeURIComponent r), some "_self")) := by
  refine ⟨?_, ?_, ?_, ?_⟩
  · intro hh
    rcases hh with hh | hh <;> subst hh <;> rfl
  · intro hh hres
    subst hh
    by_cases he : h = ""
    · subst he; rfl
    · simp [rewriteAnchor, he, hres]
  · intro hh hres hpre
    subst hh
    by_cases he : h = ""
    · subst he; rfl
    · rcases hpre with hpre | hpre <;> simp [rewriteAnchor, he, hres, hpre]
  · intro hh he hres hjs hmt
    subst hh
    simp [rewriteAnchor, he, hres, hjs, hmt]

/-- C8 witness: the spec's own examples, including the scenario where
`/html/?q=cats+2` against the search base produces the percent-encoded
proxy reference. -/
theorem claim8_witness :
    rewriteAnchor ddgBase none (some "_blank") = (none, some "_blank") ∧
    rewriteAnchor ddgBase (some "http://") none = (some "http://", none) ∧
    rewriteAnchor ddgBase (some "mailto:someone@example.com") (some "_blank") =
      (some "mailto:someone@example.com", some "_blank") ∧
    rewriteAnchor ddgBase (some "javascript:void(0)") none = (some "javascript:void(0)", none) ∧
    rewriteAnchor ddgBase (some "/html/?q=cats+2") none =
      (some "/fetch?url=https%3A%2F%2Flite.duckduckgo.com%2Fhtml%2F%3Fq%3Dcats%2B2",
        some "_self") := by
  refine ⟨?_, ?_, ?_, ?_, ?_⟩
  · exact (claim8_anchor_rewrite ddgBase none (some "_blank") "" "").1 (Or.inl rfl)
  · exact (claim8_anchor_rewrite ddgBase (some "http://") none "http://" "").2.1 rfl (by decide)
  · exact (claim8_anchor_rewrite ddgBase (some "mailto:someone@example.com") (some "_blank")
      "mailto:someone@example.com" "mailto:someone@example.com").2.2.1 rfl (by decide)
      (Or.inr (by decide))
  · exact (claim8_anchor_rewrite ddgBase (some "javascript:void(0)") none
      "javascript:void(0)" "javascript:void(0)").2.2.1 rfl (by decide) (Or.inl (by decide))
  · exact ((claim8_anchor_rewrite ddgBase (some "/html/?q=cats+2") none
      "/html/?q=cats+2" "https://lite.duckduckgo.com/html/?q=cats+2").2.2.2 rfl (by decide)
      (by decide) (by decide) (by decide)).trans (by decide)

theorem lookupH_assocSet_self (m : List (String × String)) (k v : String) :
    lookupH (assocSet m k v) k = some v := by
  induction m with
  | nil => simp [assocSet, lookupH]
  | cons kv t ih =>
    by_cases h : kv.1 = k
    · simp [assocSet, h, lookupH]
    · simp [assocSet, h, lookupH, ih]

theorem lookupH_assocSet_other (m : List (String × String)) (k' v k : String) (h : k' ≠ k) :
    lookupH (assocSet m k' v) k = lookupH m k := by
  induction m with
  | nil => simp [assocSet, lookupH, h]
  | cons kv t ih =>
    by_cases h2 : kv.1 = k'
    · simp [assocSet, h2, lookupH, h]
    · simp [assocSet, h2, lookupH, ih]

theorem lookupH_copyStep (acc : List (String × String)) (kv : String × String) (k : String)
    (h : kv.1 ≠ k) : lookupH (copyStep acc kv) k = lookupH acc k := by
  unfold copyStep
  by_cases ha : forwardAllowed.contains kv.1 = true
  · rw [if_pos ha, lookupH_assocSet_other _ _ _ _ h]
  · rw [if_neg ha]

theorem lookupH_fold_absent (up : List (String × String)) (acc : List (String × String))
    (k : String) (h : ∀ kv ∈ up, kv.1 ≠ k) :
    lookupH (up.foldl copyStep acc) k = lookupH acc k := by
  induction up generalizing acc with
  | nil => rfl
  | cons kv t ih =>
    have h1 : kv.1 ≠ k := h kv (List.mem_cons_self kv t)
    have h2 : ∀ kv' ∈ t, kv'.1 ≠ k := fun kv' hm => h kv' (List.mem_cons_of_mem kv hm)
    rw [List.foldl_cons, ih _ h2, lookupH_copyStep _ _ _ h1]

theorem lookupH_fold_allowed (up : List (String × String)) (acc : List (String × String))
    (k : String) (hnd : (up.map Prod.fst).Nodup) (hk : forwardAllowed.contains k = true) :
    lookupH (up.foldl copyStep acc) k =
      match lookupH up k with
      | some v => some v
      | none => lookupH acc k := by
  induction up generalizing acc with
  | nil => rfl
  | cons kv t ih =>
    rw [List.map_cons, List.nodup_cons] at hnd
    rw [List.foldl_cons]
    by_cases h : kv.1 = k
    · have habs : ∀ kv' ∈ t, kv'.1 ≠ k := by
        intro kv' hm heq
        apply hnd.1
        rw [h, ← heq]
        exact List.mem_map_of_mem Prod.fst hm
      rw [lookupH_fold_absent _ _ _ habs]
      have hl : lookupH (kv :: t) k = some kv.2 := by simp [lookupH, h]
      rw [hl]
      unfold copyStep
      rw [h, if_pos hk, lookupH_assocSet_self]
    · have hl : lookupH (kv :: t) k = lookupH t k := by simp [lookupH, h]
      rw [hl, ih _ hnd.2, lookupH_copyStep _ _ _ h]

theorem lookupH_fold_not_allowed (up : List (String × String)) (acc : List (String × String))
    (k : String) (hk : forwardAllowed.contains k = false) :
    lookupH (up.foldl copyStep acc) k = lookupH acc k := by
  induction up generalizing acc with
  | nil => rfl
  | cons kv t ih =>
    rw [List.foldl_cons, ih]
    unfold copyStep
    by_cases ha : forwardAllowed.contains kv.1 = true
    · have hne : kv.1 ≠ k := by
        intro heq
        rw [heq, hk] at ha
        exact Bool.false_ne_true ha
      rw [if_pos ha, lookupH_assocSet_other _ _ _ _ hne]
    · rw [if_neg ha]

theorem lookupH_postForward (up : List (String × String)) (k : String)
    (h : k ≠ "content-type") : lookupH (postForwardHeaders up) k = none := by
  unfold postForwardHeaders
  cases hct : lookupH up "content-type" with
  | none => rfl
  | some ct =>
    dsimp only
    by_cases hce : ct = ""
    · rw [if_pos hce]; rfl
    · rw [if_neg hce, lookupH_assocSet_other _ _ _ _ (fun hh => h hh.symm)]
      rfl

/-- C9 (amended): for the GET path (`proxyFetch`), the forwarded header
set is exactly the upstream headers restricted to the allow list
`cache-control, content-length, content-type, last-modified, etag`
(stated as a lookup equivalence, for upstream header lists with distinct
keys as Node produces them); the `/fetch` POST branch instead forwards
only `content-type`. -/
theorem claim9_header_allowlist :
    (∀ (up : List (String × String)) (k : String), (up.map Prod.fst).Nodup →
      lookupH (buildProxyHeaders up) k =
        if forwardAllowed.contains k then lookupH up k else none) ∧
    (∀ (up : List (String × String)) (k : String), k ≠ "content-type" →
      lookupH (postForwardHeaders up) k = none) := by
  constructor
  · intro up k hnd
    have hbuild : buildProxyHeaders up = up.foldl copyStep (postForwardHeaders up) := rfl
    rw [hbuild]
    by_cases hk : forwardAllowed.contains k = true
    · rw [if_pos hk, lookupH_fold_allowed _ _ _ hnd hk]
      cases hup : lookupH up k with
      | some v => rfl
      | none =>
        by_cases h : k = "content-type"
        · subst h
          unfold postForwardHeaders
          rw [hup]
          rfl
        · exact lookupH_postForward up k h
    · have hk' : forwardAllowed.contains k = false := by simpa using hk
      rw [if_neg hk, lookupH_fold_not_allowed _ _ _ hk']
      have hkct : k ≠ "content-type" := by
        intro heq
        rw [heq] at hk'
        exact absurd hk' (by decide)
      exact lookupH_postForward up k hkct
  · exact fun up k h => lookupH_postForward up k h

/-- C9 counterexample: a successful POST through the resource-fetch
entry point whose upstream response carries `etag` and `cache-control`
(both in the claimed allow list).  The response relayed to the client
drops them, keeping only `content-type`, so the forwarded set is not
the allow-list restriction the claim states. -/
theorem claim9_counterexample :
    (fetchRoute netHeaders "POST" (some "http://ok.example/page") [] false []).1.status = 200 ∧
    ((fetchRoute netHeaders "POST" (some "http://ok.example/page") [] false []).2.map
        (fun q => lookupH (netHeaders q).headers "etag")) = [some "abc123"] ∧
    lookupH (fetchRoute netHeaders "POST" (some "http://ok.example/page") [] false []).1.headers
        "etag" = none ∧
    lookupH (fetchRoute netHeaders "POST" (some "http://ok.example/page") [] false []).1.headers
        "cache-control" = none ∧
    lookupH (fetchRoute netHeaders "POST" (some "http://ok.example/page") [] false []).1.headers
        "content-type" = some "text/html" :=
  ⟨rfl, rfl, rfl, rfl, rfl⟩

/-- C9 witness: the amended guarantee evaluated on a concrete upstream
header list for the GET path (allow-listed `etag` kept, other header
dropped) and for the POST branch (`etag` dropped). -/
theorem claim9_witness :
    lookupH (buildProxyHeaders
        [("etag", "abc"), ("x-powered-by", "express"), ("content-type", "text/html")]) "etag" =
      some "abc" ∧
    lookupH (buildProxyHeaders
        [("etag", "abc"), ("x-powered-by", "express"), ("content-type", "text/html")])
        "x-powered-by" = none ∧
    lookupH (postForwardHeaders [("etag", "abc"), ("content-type", "text/html")]) "etag" =
      none := by
  refine ⟨?_, ?_, ?_⟩
  · exact (claim9_header_allowlist.1
      [("etag", "abc"), ("x-powered-by", "express"), ("content-type", "text/html")] "etag"
      (by decide)).trans (by decide)
  · exact (claim9_header_allowlist.1
      [("etag", "abc"), ("x-powered-by", "express"), ("content-type", "text/html")]
      "x-powered-by" (by decide)).trans (by decide)
  · exact claim9_header_allowlist.2 [("etag", "abc"), ("content-type", "text/html")] "etag"
      (by decide)
